import Mathlib

/-!
Verification development for the polymarket-bot repository.

The pipeline under scrutiny lives in `paper_trader_v2.py` (temporal filter,
prediction gate, ledger drafts), `utils/tavily_predictor.py` (the memoized
prediction engine), `paper_trader.py` / `scheduler.py` (ledger statistics)
and `main.py` (the risk gate over open positions).

Conventions of the shallow embedding:
* Python floats are modelled as rationals (`ℚ`); `round(x, 2)` is modelled
  by `round2` (round to the nearest hundredth).
* Python strings are Lean `String`s; the scanning helpers work on the
  underlying `List Char` so that every definition is executable.
* Timestamps are integers (seconds); `datetime.fromisoformat` is an external
  library routine and is passed in as a `String → Option ℤ` parameter.
* The external Tavily search subprocess is passed in as a
  `String → String` parameter (its failure mode, returning `""`, is a value
  of that parameter).
* Dictionaries keyed by strings are association lists consulted via
  `assocFind`; insertion is by consing, so the most recent binding wins,
  and (as in the source) a key is only inserted when it is absent.
-/

namespace PolyBot

/-- Lower-case a string character by character (model of `str.lower()`). -/
def lowerString (s : String) : String := ⟨s.data.map Char.toLower⟩

/-- Bool-valued prefix test on character lists. -/
def listStartsWith : List Char → List Char → Bool
  | [], _ => true
  | _ :: _, [] => false
  | a :: as, b :: bs => a == b && listStartsWith as bs

/-- Bool-valued substring test on character lists (model of Python `in`). -/
def listContains (needle : List Char) : List Char → Bool
  | [] => needle.isEmpty
  | b :: bs => listStartsWith needle (b :: bs) || listContains needle bs

/-- `strContains hay needle` is the model of Python `needle in hay`. -/
def strContains (hay needle : String) : Bool :=
  listContains needle.data hay.data

/-- Association-list lookup, the model of a Python `dict` read. -/
def assocFind {α : Type} : List (String × α) → String → Option α
  | [], _ => none
  | (k, v) :: rest, key => if k = key then some v else assocFind rest key

/-- Model of Python `round(x, 2)`: round to the nearest hundredth. -/
def round2 (x : ℚ) : ℚ := ((round (x * 100) : ℤ) : ℚ) / 100

/-  ---------------------------------------------------------------
    utils/tavily_predictor.py : the prediction engine
    --------------------------------------------------------------- -/

/-- The bullish keyword list of `WebPredictor._analyze_sentiment`. -/
def bullishWords : List String :=
  ["bull", "bullish", "rally", "surge", "moon", "strong", "higher",
   "growth", "confident", "expected", "likely", "yes", "reach",
   "target", "predict", "forecast"]

/-- The bearish keyword list of `WebPredictor._analyze_sentiment`
(the source lists "bearish" twice; the duplicate is kept). -/
def bearishWords : List String :=
  ["bear", "bearish", "crash", "dump", "fall", "lower", "weak",
   "unlikely", "doubt", "correction", "no", "bearish"]

/-- `sum(1 for w in words if w in text)`. -/
def countPresent (words : List String) (text : String) : ℕ :=
  (words.filter (fun w => strContains text w)).length

/-- `WebPredictor._analyze_sentiment`: keyword-count polarity in [-1, 1]. -/
def analyze_sentiment (text : String) : ℚ :=
  let t := lowerString text
  let pos := countPresent bullishWords t
  let neg := countPresent bearishWords t
  ((pos : ℚ) - (neg : ℚ)) / ((max (pos + neg) 1 : ℕ) : ℚ)

/-- One source line of Tavily output: after a literal `- **` opener, consume
at least one non-newline character lazily until a closing `**`
(the `.+?\x2a\x2a` part of the source-count regex). The `Bool` records
whether at least one character has been consumed. -/
def sourceClose : List Char → Bool → Option (List Char)
  | '*' :: '*' :: rest, true => some rest
  | c :: rest, _ => if c = '\n' then none else sourceClose rest true
  | [], _ => none

/-- Try to match the regex `- \x2a\x2a.+?\x2a\x2a` at the head of the list,
returning the remainder after the match. -/
def sourceMatch : List Char → Option (List Char)
  | '-' :: ' ' :: '*' :: '*' :: rest => sourceClose rest false
  | _ => none

/-- Count non-overlapping matches of the source regex, scanning left to
right (`re.findall` semantics); `fuel` bounds the recursion by the input
length. -/
def countSourcesAux : ℕ → List Char → ℕ
  | 0, _ => 0
  | _, [] => 0
  | fuel + 1, c :: rest =>
    match sourceMatch (c :: rest) with
    | some rest' => 1 + countSourcesAux fuel rest'
    | none => countSourcesAux fuel rest

/-- `len(re.findall(r'- \x2a\x2a.+?\x2a\x2a', text))` from `_parse_results`. -/
def countSources (text : String) : ℕ :=
  countSourcesAux text.data.length text.data

/-- The engine's prediction record (the dict returned by `_parse_results`;
the audit-only `answer_preview` entry is never read by the pipeline and is
not modelled). -/
structure Prediction where
  prob_yes : ℚ
  confidence : ℚ
  reasoning : String
  sentiment : ℚ
  deriving DecidableEq, Repr

/-- Format a rational as Python `f"{x:+.2f}"` does (sign, two decimals). -/
def fmtQ2 (q : ℚ) : String :=
  let r := round (q * 100)
  let sign := if r < 0 then "-" else "+"
  let a := r.natAbs
  sign ++ toString (a / 100) ++ "." ++
    (if a % 100 < 10 then "0" else "") ++ toString (a % 100)

/-- The templated rationale string of `_parse_results`. -/
def mkReasoning (sentiment : ℚ) (numSources : ℕ) : String :=
  if sentiment > 0.3 then
    "Bullish sentiment (" ++ fmtQ2 sentiment ++ ") from " ++
      toString numSources ++ " sources"
  else if sentiment < -0.3 then
    "Bearish sentiment (" ++ fmtQ2 sentiment ++ ") from " ++
      toString numSources ++ " sources"
  else
    "Mixed sentiment (" ++ fmtQ2 sentiment ++ ") from " ++
      toString numSources ++ " sources"

/-- `WebPredictor._parse_results`: turn raw search text into a prediction.
Empty text (the search-failure default) yields the neutral prediction. -/
def parse_results (text : String) (_question : String) : Prediction :=
  if text = "" then
    { prob_yes := 0.5, confidence := 0.0,
      reasoning := "No search results", sentiment := 0.0 }
  else
    let num_sources := countSources text
    let sentiment := analyze_sentiment text
    let prob_yes := max 0.05 (min 0.95 (0.5 + sentiment * 0.25))
    let confidence :=
      min (0.35 + (num_sources : ℚ) * 0.08 + |sentiment| * 0.25) 0.85
    { prob_yes := round2 prob_yes, confidence := round2 confidence,
      reasoning := mkReasoning sentiment num_sources,
      sentiment := round2 sentiment }

/-- Replace every non-overlapping occurrence of `w` in `s` by `r`,
scanning left to right (model of Python `str.replace`); `fuel` bounds the
recursion by the input length. -/
def replaceAllAux (w r : List Char) : ℕ → List Char → List Char
  | 0, s => s
  | _, [] => []
  | fuel + 1, c :: rest =>
    if listStartsWith w (c :: rest) && !w.isEmpty then
      r ++ replaceAllAux w r fuel ((c :: rest).drop w.length)
    else
      c :: replaceAllAux w r fuel rest

/-- String-level wrapper for `replaceAllAux`. -/
def replaceAll (s w r : String) : String :=
  ⟨replaceAllAux w.data r.data s.data.length s.data⟩

/-- Python `str.strip()`: drop whitespace from both ends. -/
def stripStr (s : String) : String :=
  ⟨(s.data.dropWhile Char.isWhitespace).reverse.dropWhile
      Char.isWhitespace |>.reverse⟩

/-- Python slicing `s[:n]`. -/
def takeStr (s : String) (n : ℕ) : String := ⟨s.data.take n⟩

/-- The category → context-phrase table of `_build_query`. -/
def categoryContext (category : String) : Option String :=
  if category = "crypto" then some "price prediction forecast 2026"
  else if category = "politics" then some "polls odds prediction"
  else if category = "sports" then some "odds prediction"
  else if category = "technology" then some "forecast"
  else none

/-- `WebPredictor._build_query`: lower-case, strip a fixed stopword set,
append the category context, strip and truncate to 100 characters. -/
def build_query (question category : String) : String :=
  let q0 := lowerString question
  let q1 := ["will", "by", "the", "in", "on", "if", "?", "$", "%"].foldl
    (fun q w => replaceAll q w " ") q0
  let q2 := match categoryContext category with
    | some ctx => q1 ++ " " ++ ctx
    | none => q1
  takeStr (stripStr q2) 100

/-- The process-lifetime prediction cache (`self.cache`, a Python dict). -/
abbrev Cache := List (String × Prediction)

/-- The cache key of `WebPredictor.predict`: `f"{question}_{category}"`. -/
def cacheKey (question category : String) : String :=
  question ++ "_" ++ category

/-- Outcome of one `predict` call: the returned prediction, the cache after
the call, and whether the external search was actually performed. -/
structure PredictOut where
  result : Prediction
  cache : Cache
  searched : Bool
  deriving DecidableEq, Repr

/-- `WebPredictor.predict`: cache lookup by the concatenated key, on a miss
build the query, run the external search (`search`), parse, and cache. -/
def predict (search : String → String) (cache : Cache)
    (question category : String) : PredictOut :=
  match assocFind cache (cacheKey question category) with
  | some p => ⟨p, cache, false⟩
  | none =>
    let query := build_query question category
    let text := search query
    let p := parse_results text question
    ⟨p, (cacheKey question category, p) :: cache, true⟩

/-  ---------------------------------------------------------------
    paper_trader_v2.py : temporal filter, gate, ledger drafts
    --------------------------------------------------------------- -/

/-- A flattened market record as consumed by `_analyze_market`:
`prices` is the `prices["yes"]` entry when present (a missing `prices`
dict and a missing `"yes"` key both fall to the same default in the
source); `event_end_date` is attached during event flattening. -/
structure Market where
  id : String
  question : String
  endDate : Option String
  event_end_date : String
  prices : Option ℚ
  deriving DecidableEq, Repr

/-- `market.get("endDate") or market.get("event_end_date", "")`:
a missing or empty `endDate` falls back to the event's end date. -/
def effectiveEndDate (m : Market) : String :=
  match m.endDate with
  | some s => if s = "" then m.event_end_date else s
  | none => m.event_end_date

/-- `prices.get("yes", 0.5)`: the quoted YES price with its default. -/
def yesPriceOf (m : Market) : ℚ := m.prices.getD 0.5

/-- Scan the question for non-overlapping matches of the regex `20\d\d`
and return the matched years as numbers (`re.findall` semantics). -/
def findYearsAux : ℕ → List Char → List ℕ
  | 0, _ => []
  | _, [] => []
  | fuel + 1, '2' :: '0' :: a :: b :: rest =>
    if a.isDigit && b.isDigit then
      (2000 + 10 * (a.toNat - 48) + (b.toNat - 48)) ::
        findYearsAux fuel rest
    else
      findYearsAux fuel ('0' :: a :: b :: rest)
  | fuel + 1, _ :: rest => findYearsAux fuel rest

/-- `re.findall(r'20\d\d', question)` as numbers. -/
def findYears (question : String) : List ℕ :=
  findYearsAux question.data.length question.data

/-- `PaperTrader._detect_category` (identical in both trader versions). -/
def detect_category (question : String) : String :=
  let q := lowerString question
  if ["bitcoin", "btc", "crypto", "ethereum"].any
      (fun w => strContains q w) then "crypto"
  else if ["trump", "biden", "election", "senate"].any
      (fun w => strContains q w) then "politics"
  else if ["super bowl", "nba", "nfl", "championship"].any
      (fun w => strContains q w) then "sports"
  else "other"

/-- Verdict of the resolution-date stage of `_analyze_market`. -/
inductive DateVerdict
  | pastDate
  | tooFar
  deriving DecidableEq, Repr

/-- The resolution-date checks of `_analyze_market` (v2, lines 114-130):
empty date → no check; parsed date strictly before `now` → `pastDate`;
parsed date more than `days_ahead` days out → `tooFar`; an unparseable
date (`except: pass`) blocks nothing. `parseISO` models
`datetime.fromisoformat`; `(end_dt - now).days` is floor division of the
second difference by 86400 (Python `timedelta.days`). -/
def dateCheck (parseISO : String → Option ℤ) (now : ℤ) (days_ahead : ℤ)
    (m : Market) : Option DateVerdict :=
  let ed := effectiveEndDate m
  if ed = "" then none
  else
    match parseISO ed with
    | some t =>
      if t < now then some .pastDate
      else if days_ahead < (t - now).fdiv 86400 then some .tooFar
      else none
    | none => none

/-- A ledger draft: the dict built at the end of `_analyze_market`,
i.e. the row later inserted by `_log_predictions`. -/
structure PaperTrade where
  market_id : String
  question : String
  category : String
  our_prediction : ℚ
  market_odds : ℚ
  direction : String
  confidence : ℚ
  edge : ℚ
  sentiment_score : ℚ
  reasoning : String
  trade_size : ℚ
  open_time : ℤ
  deriving DecidableEq, Repr

/-- The edge/confidence gate and sizing tail of `_analyze_market`
(v2, lines 140-174): compute the edge against the quoted price, reject
below either threshold, otherwise build the ledger draft. -/
def gateAndSize (m : Market) (category : String) (prediction : Prediction)
    (now : ℤ) : Option PaperTrade :=
  let yes_price := yesPriceOf m
  let our_prob := prediction.prob_yes
  let edge := |our_prob - yes_price|
  let confidence := prediction.confidence
  if edge < 0.10 ∨ confidence < 0.65 then none
  else
    some { market_id := m.id, question := m.question, category := category,
           our_prediction := our_prob, market_odds := yes_price,
           direction := if our_prob > yes_price then "YES" else "NO",
           confidence := confidence, edge := edge,
           sentiment_score := prediction.sentiment,
           reasoning := takeStr prediction.reasoning 100,
           trade_size := round2 (10 + confidence * 40), open_time := now }

/-- Result of analyzing one market (`_analyze_market`'s return value:
a skip tag, `None`, or a ledger draft). -/
inductive AnalyzeResult
  | skippedDate
  | skippedYear
  | noTrade
  | trade (t : PaperTrade)
  deriving DecidableEq, Repr

/-- One market's analysis outcome plus whether the prediction engine was
invoked for it. -/
structure AnalyzeOut where
  result : AnalyzeResult
  predicted : Bool
  deriving DecidableEq, Repr

/-- `PaperTrader._analyze_market` (v2): date filter, stale-year filter,
then predict and gate. The returned cache reflects the predictor's
memoization side effect. -/
def analyzeMarket (parseISO : String → Option ℤ) (search : String → String)
    (now : ℤ) (currentYear : ℕ) (days_ahead : ℤ) (cache : Cache)
    (m : Market) : AnalyzeOut × Cache :=
  match dateCheck parseISO now days_ahead m with
  | some .pastDate => (⟨.skippedDate, false⟩, cache)
  | some .tooFar => (⟨.noTrade, false⟩, cache)
  | none =>
    if (findYears m.question).any (fun y => decide (y < currentYear)) then
      (⟨.skippedYear, false⟩, cache)
    else
      let category := detect_category m.question
      let po := predict search cache m.question category
      match gateAndSize m category po.result now with
      | some t => (⟨.trade t, true⟩, po.cache)
      | none => (⟨.noTrade, true⟩, po.cache)

/-- The scan loop of `scan_and_predict` (v2): analyze each market in turn,
threading the prediction cache, and collect the accepted ledger drafts in
order. -/
def scanMarkets (parseISO : String → Option ℤ) (search : String → String)
    (now : ℤ) (currentYear : ℕ) (days_ahead : ℤ) :
    Cache → List Market → Cache × List PaperTrade
  | cache, [] => (cache, [])
  | cache, m :: ms =>
    let step := analyzeMarket parseISO search now currentYear days_ahead
      cache m
    let rest := scanMarkets parseISO search now currentYear days_ahead
      step.2 ms
    match step.1.result with
    | .trade t => (rest.1, t :: rest.2)
    | _ => (rest.1, rest.2)

/-- A persisted ledger row: the inserted draft plus the nullable
resolution columns (`_log_predictions` inserts with these NULL). -/
structure LedgerRow where
  trade : PaperTrade
  resolve_time : Option String
  outcome : Option String
  resolved_value : Option ℚ
  pnl : Option ℚ
  deriving DecidableEq, Repr

/-- `PaperTrader._log_predictions`: append one row per accepted draft,
resolution columns NULL. -/
def logPredictions (ledger : List LedgerRow) (trades : List PaperTrade) :
    List LedgerRow :=
  ledger ++ trades.map (fun t => ⟨t, none, none, none, none⟩)

/-  ---------------------------------------------------------------
    main.py : risk gate over open positions
    --------------------------------------------------------------- -/

/-- The configuration options read by `PolymarketBot` (defaults in
`_load_config`: max_trade_size 50, max_open_positions 5,
auto_execute False). -/
structure BotConfig where
  max_trade_size : ℚ
  max_open_positions : ℕ
  auto_execute : Bool
  deriving DecidableEq, Repr

/-- The analyzer output consumed by `evaluate_position`
(`MarketAnalyzer.analyze_market`'s return dict). -/
structure MainPrediction where
  direction : String
  probability : ℚ
  confidence : ℚ
  reasoning : String
  deriving DecidableEq, Repr

/-- A market record as read by `evaluate_position` / `_calculate_edge`. -/
structure MainMarket where
  id : String
  yes_price : Option ℚ
  volume : Option ℚ
  deriving DecidableEq, Repr

/-- `market.get("volume", 1000)` (the volatility input of
`evaluate_position`). -/
def volumeOf (m : MainMarket) : ℚ := m.volume.getD 1000

/-- `market.get("yes_price", 0.5)` in `main.py`. -/
def mainYesPrice (m : MainMarket) : ℚ := m.yes_price.getD 0.5

/-- An opportunity as assembled by `scan_markets`. -/
structure MainOpportunity where
  market : MainMarket
  prediction : MainPrediction
  edge : ℚ
  deriving DecidableEq, Repr

/-- A trade decision (the dict returned by `evaluate_position`). -/
structure Decision where
  market_id : String
  side : String
  size : ℚ
  confidence : ℚ
  reasoning : String
  deriving DecidableEq, Repr

/-- The open-position table `self.active_positions` (a dict keyed by
market id). -/
abbrev Positions := List (String × Decision)

/-- `PolymarketBot.evaluate_position`: reject when the open-position count
already reached `max_open_positions`, or when this market already has an
open position; otherwise size the position and apply the risk manager's
approval. `calc` and `approve` stand for
`RiskManager.calculate_position` / `RiskManager.approve_trade`, whose
source (`strategies/risk_manager.py`) is not in the repository snapshot;
the theorems below hold for every behavior of these two functions. -/
def evaluate_position (cfg : BotConfig) (active : Positions)
    (opp : MainOpportunity) (calcPos : ℚ → ℚ → ℚ → ℚ)
    (approve : ℚ → ℚ → ℚ → Bool) : Option Decision :=
  if cfg.max_open_positions ≤ active.length then none
  else if (assocFind active opp.market.id).isSome then none
  else
    let position_size := calcPos opp.prediction.confidence opp.edge
      (volumeOf opp.market)
    if !approve position_size opp.prediction.probability
        (mainYesPrice opp.market) then none
    else
      some { market_id := opp.market.id,
             side := if opp.prediction.direction = "UP" then "YES" else "NO",
             size := min position_size cfg.max_trade_size,
             confidence := opp.prediction.confidence,
             reasoning := opp.prediction.reasoning }

/-- `PolymarketBot.execute_trade`: only with `auto_execute` set and a
successful order placement (`orderOk`) is the decision recorded among the
open positions. -/
def execute_trade (cfg : BotConfig) (orderOk : Bool) (active : Positions)
    (d : Decision) : Positions :=
  if cfg.auto_execute && orderOk then (d.market_id, d) :: active else active

/-- One evaluate-then-execute step of the coordinator for a single
opportunity (the per-opportunity path of the bot loop). -/
def botStep (cfg : BotConfig) (active : Positions) (opp : MainOpportunity)
    (calcPos : ℚ → ℚ → ℚ → ℚ) (approve : ℚ → ℚ → ℚ → Bool)
    (orderOk : Bool) : Positions :=
  match evaluate_position cfg active opp calcPos approve with
  | none => active
  | some d => execute_trade cfg orderOk active d

/-- `monitor_positions`: a resolved market's position is deleted. -/
def removePosition (active : Positions) (marketId : String) : Positions :=
  active.filter (fun e => !(e.1 == marketId))

/-- The open-position states reachable from start-up (empty table) by
evaluate/execute steps and resolution deletions. -/
inductive Reachable (cfg : BotConfig) : Positions → Prop
  | init : Reachable cfg []
  | step {s : Positions} (opp : MainOpportunity) (calcPos : ℚ → ℚ → ℚ → ℚ)
      (approve : ℚ → ℚ → ℚ → Bool) (orderOk : Bool) :
      Reachable cfg s → Reachable cfg (botStep cfg s opp calcPos approve orderOk)
  | resolve {s : Positions} (marketId : String) :
      Reachable cfg s → Reachable cfg (removePosition s marketId)

/-  ---------------------------------------------------------------
    paper_trader.py / scheduler.py : ledger statistics
    --------------------------------------------------------------- -/

/-- The aggregate accumulated by the `get_stats` SQL scan. -/
structure Agg where
  total : ℕ
  wins : ℕ
  losses : ℕ
  pnl : ℚ
  deriving DecidableEq, Repr

/-- Row scan of `PaperTrader.get_stats`'s query: the
`WHERE outcome IS NOT NULL` clause drops unresolved rows; `SUM(pnl)`
ignores NULLs; `COALESCE` turns an empty aggregate into 0. -/
def statsScan : List LedgerRow → Agg
  | [] => ⟨0, 0, 0, 0⟩
  | r :: rest =>
    let a := statsScan rest
    match r.outcome with
    | none => a
    | some o =>
      ⟨a.total + 1,
       a.wins + (if o = "WIN" then 1 else 0),
       a.losses + (if o = "LOSS" then 1 else 0),
       a.pnl + r.pnl.getD 0⟩

/-- The dict returned by `PaperTrader.get_stats`. -/
structure Stats where
  total_predictions : ℕ
  wins : ℕ
  losses : ℕ
  win_rate : ℚ
  total_pnl : ℚ
  deriving DecidableEq, Repr

/-- `PaperTrader.get_stats`: a pure aggregate over the ledger rows
(the SQL is a single SELECT; no row is modified). -/
def get_stats (rows : List LedgerRow) : Stats :=
  let a := statsScan rows
  { total_predictions := a.total, wins := a.wins, losses := a.losses,
    win_rate := if 0 < a.wins + a.losses then
        ((a.wins : ℚ) / ((a.wins : ℚ) + (a.losses : ℚ))) * 100
      else 0,
    total_pnl := a.pnl }

/-- Row scan of `scheduler.get_stats`'s query: total over all rows,
resolved count, and wins. -/
def schedScan : List LedgerRow → ℕ × ℕ × ℕ
  | [] => (0, 0, 0)
  | r :: rest =>
    let a := schedScan rest
    (a.1 + 1,
     a.2.1 + (if r.outcome.isSome then 1 else 0),
     a.2.2 + (if r.outcome = some "WIN" then 1 else 0))

/-- The dict returned by `scheduler.get_stats` (total, resolved, wins,
win rate). -/
structure SchedStats where
  total : ℕ
  resolved : ℕ
  wins : ℕ
  win_rate : ℚ
  deriving DecidableEq, Repr

/-- `scheduler.get_stats`: counts every ledger row in `total`. -/
def sched_get_stats (rows : List LedgerRow) : SchedStats :=
  let a := schedScan rows
  { total := a.1, resolved := a.2.1, wins := a.2.2,
    win_rate := if 0 < a.2.1 then
        ((a.2.2 : ℚ) / ((max a.2.1 1 : ℕ) : ℚ)) * 100
      else 0 }

/-  ---------------------------------------------------------------
    Property predicates and concrete sample inputs
    --------------------------------------------------------------- -/

/-- The clamped output ranges the engine is specified to respect. -/
def predBounds (p : Prediction) : Prop :=
  0.05 ≤ p.prob_yes ∧ p.prob_yes ≤ 0.95 ∧
    0 ≤ p.confidence ∧ p.confidence ≤ 0.85

/-- Sample Tavily output with four source lines and neutral wording. -/
def sampleSourceText : String := "- **a**\n- **b**\n- **c**\n- **d**\n"

/-- A search collaborator that always returns `sampleSourceText`. -/
def sampleSearch : String → String := fun _ => sampleSourceText

/-- A search collaborator that always fails (empty output). -/
def emptySearch : String → String := fun _ => ""

/-- A date parser recognizing exactly one ISO timestamp. -/
def sampleParseISO : String → Option ℤ :=
  fun s => if s = "2020-01-01T00:00:00Z" then some 1577836800 else none

/-- A dateless market quoted at 0.90. -/
def sampleMarket : Market := ⟨"m4", "Will it happen?", none, "", some (9/10)⟩

/-- The ledger draft `sampleMarket` yields under `sampleSearch`
at time 1760000000. -/
def sampleTrade : PaperTrade :=
  ⟨"m4", "Will it happen?", "other", 1/2, 9/10, "NO", 67/100, 2/5, 0,
   "Mixed sentiment (+0.00) from 4 sources", 184/5, 1760000000⟩

/-- `sampleTrade` as a freshly inserted (unresolved) ledger row. -/
def sampleRow : LedgerRow := ⟨sampleTrade, none, none, none, none⟩

/-- The spec's scenario prediction: probability 0.60, confidence 0.70. -/
def scenarioPrediction : Prediction := ⟨3/5, 7/10, "scenario", 0⟩

/-- The spec's scenario market: quoted YES price 0.35. -/
def scenarioMarket : Market := ⟨"mS", "Will it happen?", none, "", some (35/100)⟩

/-- The ledger draft of the spec scenario (direction YES, size 38). -/
def scenarioTrade : PaperTrade :=
  ⟨"mS", "Will it happen?", "other", 3/5, 7/20, "YES", 7/10, 1/4, 0,
   "scenario", 38, 0⟩

/-- A market whose end date is in the past and whose question also carries
a stale year token. -/
def pastMarket : Market :=
  ⟨"m5", "Will the 2020 election be contested?",
   some "2020-01-01T00:00:00Z", "", some (1/2)⟩

/-- A dateless market whose question carries a stale year token. -/
def staleYearMarket : Market :=
  ⟨"m6", "Will the 2020 thing happen?", none, "", some (1/2)⟩

/-- A market record with no `prices` entry at all. -/
def missingPriceMarket : Market := ⟨"m8", "q", none, "", none⟩

/-- A main-bot market record with every optional field absent. -/
def bareMainMarket : MainMarket := ⟨"m", none, none⟩

/-- A dummy recorded decision. -/
def sampleDecision : Decision := ⟨"m", "NO", 10, 1/2, ""⟩

/-- A minimal opportunity for the given market id. -/
def sampleOpp (i : String) : MainOpportunity :=
  ⟨⟨i, none, none⟩, ⟨"UP", 1/2, 1/2, ""⟩, 0⟩

/-- A resolved winning ledger row with profit 5. -/
def winRow : LedgerRow := ⟨sampleTrade, some "t", some "WIN", some 1, some 5⟩

/-- A cache holding the scenario prediction under the scenario key. -/
def seedCache : Cache :=
  [(cacheKey "Will it happen?" "other", scenarioPrediction)]

/-- The scenario draft as a freshly inserted ledger row. -/
def scenarioRow : LedgerRow := ⟨scenarioTrade, none, none, none, none⟩

/-  ===============================================================
    Theorems
    =============================================================== -/

/-- `round2` is monotone. -/
theorem round2_mono {x y : ℚ} (h : x ≤ y) : round2 x ≤ round2 y := by
  unfold round2
  have h1 : round (x * 100) ≤ round (y * 100) := by
    rw [round_eq, round_eq]
    exact Int.floor_le_floor (by linarith)
  exact div_le_div_of_nonneg_right (Int.cast_le.mpr h1) (by norm_num)

/-- `round2` fixes every whole number of hundredths. -/
theorem round2_hundredth (n : ℤ) : round2 ((n : ℚ) / 100) = (n : ℚ) / 100 := by
  unfold round2
  have h : ((n : ℚ) / 100) * 100 = (n : ℚ) := by field_simp
  rw [h, round_intCast]

/-- `round2` fixes a value known to be a whole number of hundredths. -/
theorem round2_eq_self {n : ℤ} {q : ℚ} (h : q = (n : ℚ) / 100) :
    round2 q = q := by
  rw [h, round2_hundredth]

/-- Every prediction built by `_parse_results` satisfies the clamped
ranges, on both the empty-text and the regular path. -/
theorem parse_results_bounds (text question : String) :
    predBounds (parse_results text question) := by
  unfold parse_results predBounds
  split
  · refine ⟨by norm_num, by norm_num, by norm_num, by norm_num⟩
  · refine ⟨?_, ?_, ?_, ?_⟩
    · have h1 : (0.05 : ℚ) ≤ max 0.05 (min 0.95
          (0.5 + analyze_sentiment text * 0.25)) := le_max_left _ _
      calc (0.05 : ℚ) = round2 0.05 :=
            (round2_eq_self (n := 5) (by norm_num)).symm
        _ ≤ _ := round2_mono h1
    · have h1 : max 0.05 (min 0.95
          (0.5 + analyze_sentiment text * 0.25)) ≤ (0.95 : ℚ) :=
        max_le (by norm_num) (min_le_left _ _)
      calc round2 _ ≤ round2 0.95 := round2_mono h1
        _ = (0.95 : ℚ) := round2_eq_self (n := 95) (by norm_num)
    · have h1 : (0 : ℚ) ≤ min (0.35 + (countSources text : ℚ) * 0.08 +
          |analyze_sentiment text| * 0.25) 0.85 := by
        refine le_min ?_ (by norm_num)
        positivity
      calc (0 : ℚ) = round2 0 := (round2_eq_self (n := 0) (by norm_num)).symm
        _ ≤ _ := round2_mono h1
    · have h1 : min (0.35 + (countSources text : ℚ) * 0.08 +
          |analyze_sentiment text| * 0.25) 0.85 ≤ (0.85 : ℚ) :=
        min_le_right _ _
      calc round2 _ ≤ round2 0.85 := round2_mono h1
        _ = (0.85 : ℚ) := round2_eq_self (n := 85) (by norm_num)

/-- A successful `assocFind` exhibits the key/value pair in the list. -/
theorem assocFind_mem {α : Type} {l : List (String × α)} {k : String}
    {v : α} (h : assocFind l k = some v) : (k, v) ∈ l := by
  induction l with
  | nil => exact absurd h (by simp [assocFind])
  | cons e rest ih =>
    obtain ⟨k', v'⟩ := e
    simp only [assocFind] at h
    split at h
    · next heq =>
      injection h with hv
      subst heq; subst hv
      exact List.mem_cons_self _ _
    · exact List.mem_cons_of_mem _ (ih h)

/-- A failed `assocFind` means the key is bound nowhere in the list. -/
theorem assocFind_none_not_mem {α : Type} {l : List (String × α)}
    {k : String} (h : assocFind l k = none) : k ∉ l.map Prod.fst := by
  induction l with
  | nil => simp
  | cons e rest ih =>
    obtain ⟨k', v'⟩ := e
    simp only [assocFind] at h
    split at h
    · exact absurd h (by simp)
    · next hne =>
      intro hmem
      rcases List.mem_cons.mp hmem with h1 | h2
      · exact hne h1.symm
      · exact ih h h2

/-- C2: for every question and category input, including the
empty-search-result / search-failure path, the prediction returned by the
engine satisfies 0.05 ≤ probability-of-YES ≤ 0.95 and
0 ≤ confidence ≤ 0.85: every `_parse_results` output lies in the clamped
ranges, and `predict` only ever returns such outputs, given that every
cached value is one. -/
theorem c2_prediction_ranges :
    (∀ text question, predBounds (parse_results text question)) ∧
    (∀ search cache question category,
        (∀ kv ∈ cache, predBounds kv.2) →
        predBounds (predict search cache question category).result) := by
  constructor
  · exact parse_results_bounds
  · intro search cache question category hc
    unfold predict
    cases h : assocFind cache (cacheKey question category) with
    | some p => exact hc _ (assocFind_mem h)
    | none =>
      exact parse_results_bounds (search (build_query question category))
        question

/-- C2 witness: a concrete call on the empty cache, with the
always-failing search collaborator, lands in the clamped ranges. -/
theorem c2_witness :
    predBounds (predict emptySearch [] "Will it happen?" "other").result :=
  c2_prediction_ranges.2 emptySearch [] "Will it happen?" "other"
    (by intro kv hkv; exact absurd hkv (List.not_mem_nil _))

/-- A `predict` call whose key is cached is a pure hit: the stored value
is returned, the cache is untouched, no search runs. -/
theorem predict_hit {search : String → String} {cache : Cache}
    {question category : String} {p : Prediction}
    (h : assocFind cache (cacheKey question category) = some p) :
    predict search cache question category = ⟨p, cache, false⟩ := by
  unfold predict
  rw [h]

/-- A `predict` call whose key is absent searches and extends the cache. -/
theorem predict_miss_eq {search : String → String} {cache : Cache}
    {question category : String}
    (h : assocFind cache (cacheKey question category) = none) :
    predict search cache question category
      = ⟨parse_results (search (build_query question category)) question,
         (cacheKey question category,
          parse_results (search (build_query question category)) question)
           :: cache, true⟩ := by
  unfold predict
  rw [h]

/-- After any `predict` call, the call's key is bound to the returned
prediction. -/
theorem predict_caches_key (search : String → String) (cache : Cache)
    (question category : String) :
    assocFind (predict search cache question category).cache
        (cacheKey question category)
      = some (predict search cache question category).result := by
  cases h : assocFind cache (cacheKey question category) with
  | some p => rw [predict_hit h]; exact h
  | none => rw [predict_miss_eq h]; simp [assocFind]

/-- A binding present before a `predict` call is still present, with the
same value, afterwards. -/
theorem predict_preserves {search : String → String} {cache : Cache}
    {question category k : String} {p : Prediction}
    (hk : assocFind cache k = some p) :
    assocFind (predict search cache question category).cache k = some p := by
  cases h : assocFind cache (cacheKey question category) with
  | some q => rw [predict_hit h]; exact hk
  | none =>
    rw [predict_miss_eq h]
    simp only [assocFind]
    split
    · next heq => rw [heq] at h; rw [h] at hk; exact absurd hk (by simp)
    · exact hk

/-- C3: within one process, `predict` is memoized by the concatenated
cache key: a hit returns the stored value without searching; after any
call the key holds the returned value; stored values survive later calls
unchanged; hence a repeated call with the same (question, category) pair
returns the first call's result, performing no second search. -/
theorem c3_predict_memoized :
    (∀ search cache question category p,
        assocFind cache (cacheKey question category) = some p →
        predict search cache question category = ⟨p, cache, false⟩) ∧
    (∀ search cache question category,
        assocFind (predict search cache question category).cache
            (cacheKey question category)
          = some (predict search cache question category).result) ∧
    (∀ search cache question category k p,
        assocFind cache k = some p →
        assocFind (predict search cache question category).cache k
          = some p) ∧
    (∀ search cache question category,
        predict search (predict search cache question category).cache
            question category
          = ⟨(predict search cache question category).result,
             (predict search cache question category).cache, false⟩) := by
  refine ⟨fun s c q cat p h => predict_hit h, fun s c q cat => predict_caches_key s c q cat,
    fun s c q cat k p hk => predict_preserves hk, ?_⟩
  intro search cache question category
  exact predict_hit (predict_caches_key search cache question category)

/-- C3 witness: with the neutral prediction pre-cached under its key, a
call is a pure cache hit, and the stored binding survives a call for a
different pair. -/
theorem c3_witness :
    (predict emptySearch
        [(cacheKey "Will it happen?" "other",
          parse_results "" "Will it happen?")] "Will it happen?" "other"
      = ⟨parse_results "" "Will it happen?",
         [(cacheKey "Will it happen?" "other",
           parse_results "" "Will it happen?")], false⟩) ∧
    (assocFind
        (predict emptySearch
          [(cacheKey "Will it happen?" "other",
            parse_results "" "Will it happen?")] "x" "y").cache
        (cacheKey "Will it happen?" "other")
      = some (parse_results "" "Will it happen?")) :=
  ⟨c3_predict_memoized.1 emptySearch _ "Will it happen?" "other" _
    (by simp [assocFind]),
   c3_predict_memoized.2.2.1 emptySearch _ "x" "y"
    (cacheKey "Will it happen?" "other") _ (by simp [assocFind])⟩

/-- C9 counterexample: the cache key is the bare concatenation
`question + "_" + category`, so the distinct pairs ("a_b", "c") and
("a", "b_c") share the key "a_b_c"; the second call is served the first
pair's stored result from the cache (no search is performed), refuting
"a cache hit occurs only when both the question and the category are
exactly equal". -/
theorem c9_counterexample :
    (predict emptySearch (predict emptySearch [] "a_b" "c").cache
        "a" "b_c").searched = false ∧
    (predict emptySearch (predict emptySearch [] "a_b" "c").cache
        "a" "b_c").result = (predict emptySearch [] "a_b" "c").result ∧
    ("a_b", "c") ≠ (("a", "b_c") : String × String) :=
  ⟨rfl, rfl, by decide⟩

/-- C9 (amended): a cache hit occurs exactly when the concatenated key
`question + "_" + category` coincides with a previously computed call's
key; for two pairs whose concatenated keys differ, the cache never serves
one pair's stored result for the other (distinct pairs with colliding
concatenations do share an entry, as the counterexample shows). -/
theorem c9_amended :
    ∀ (search : String → String) (cache : Cache) (q1 c1 q2 c2 : String),
      cacheKey q1 c1 ≠ cacheKey q2 c2 →
      assocFind cache (cacheKey q2 c2) = none →
      (predict search (predict search cache q1 c1).cache q2 c2).searched
        = true := by
  intro search cache q1 c1 q2 c2 hne hmiss
  have hnone : assocFind (predict search cache q1 c1).cache
      (cacheKey q2 c2) = none := by
    cases h : assocFind cache (cacheKey q1 c1) with
    | some p => rw [predict_hit h]; exact hmiss
    | none =>
      rw [predict_miss_eq h]
      simp only [assocFind]
      rw [if_neg hne]
      exact hmiss
  rw [predict_miss_eq hnone]

/-- C9 witness: two pairs with distinct concatenated keys never share a
cache entry — the second call really searches. -/
theorem c9_witness :
    (predict emptySearch (predict emptySearch [] "a" "b").cache
        "c" "d").searched = true :=
  c9_amended emptySearch [] "a" "b" "c" "d" (by decide) (by decide)

/-- Inversion of an accepted `gateAndSize`: the draft's fields and the
threshold facts the acceptance implies. -/
theorem gate_some_inv {m : Market} {category : String} {p : Prediction}
    {now : ℤ} {t : PaperTrade}
    (h : gateAndSize m category p now = some t) :
    0.10 ≤ t.edge ∧ 0.65 ≤ t.confidence ∧
    t.edge = |t.our_prediction - t.market_odds| ∧
    t.confidence = p.confidence ∧
    t.our_prediction = p.prob_yes ∧
    t.market_odds = yesPriceOf m ∧
    t.trade_size = round2 (10 + p.confidence * 40) := by
  unfold gateAndSize at h
  dsimp only at h
  split at h
  · exact absurd h (by simp)
  · next hcond =>
    push_neg at hcond
    injection h with hd
    subst hd
    exact ⟨hcond.1, hcond.2, rfl, rfl, rfl, rfl, rfl⟩

/-- A prediction failing either threshold is rejected by the gate. -/
theorem gate_none {m : Market} {category : String} {p : Prediction}
    {now : ℤ}
    (h : |p.prob_yes - yesPriceOf m| < 0.10 ∨ p.confidence < 0.65) :
    gateAndSize m category p now = none := by
  unfold gateAndSize
  rw [if_pos h]

/-- A draft produced by `_analyze_market` comes from an accepted gate. -/
theorem analyze_trade_inv {parseISO : String → Option ℤ}
    {search : String → String} {now : ℤ} {currentYear : ℕ}
    {days_ahead : ℤ} {cache : Cache} {m : Market} {t : PaperTrade}
    (h : (analyzeMarket parseISO search now currentYear days_ahead cache
        m).1.result = .trade t) :
    gateAndSize m (detect_category m.question)
        (predict search cache m.question (detect_category m.question)).result
        now
      = some t := by
  unfold analyzeMarket at h
  split at h
  · exact absurd h (by simp)
  · exact absurd h (by simp)
  · split at h
    · exact absurd h (by simp)
    · dsimp only at h
      split at h
      · next t' heq =>
        injection h with h'
        rw [← h']
        exact heq
      · exact absurd h (by simp)

/-- Every draft collected by the scan loop comes from an accepted gate
for one of the scanned markets. -/
theorem scan_trades_sound {parseISO : String → Option ℤ}
    {search : String → String} {now : ℤ} {currentYear : ℕ}
    {days_ahead : ℤ} :
    ∀ (ms : List Market) (cache : Cache) (t : PaperTrade),
      t ∈ (scanMarkets parseISO search now currentYear days_ahead cache
        ms).2 →
      ∃ (m : Market) (c : Cache),
        gateAndSize m (detect_category m.question)
            (predict search c m.question (detect_category m.question)).result
            now
          = some t := by
  intro ms
  induction ms with
  | nil => intro cache t h; exact absurd h (by simp [scanMarkets])
  | cons m ms ih =>
    intro cache t h
    unfold scanMarkets at h
    dsimp only at h
    split at h
    · next t' heq =>
      rcases List.mem_cons.mp h with h1 | h2
      · subst h1
        exact ⟨m, cache, analyze_trade_inv heq⟩
      · exact ih _ t h2
    · exact ih _ t h

/-- C1: a paper-trade row is inserted into the ledger only if the edge
(the absolute difference between our probability and the quoted YES
price) is at least 0.10 and the confidence is at least 0.65; a market
failing either bound yields no ledger row. -/
theorem c1_ledger_thresholds :
    (∀ (parseISO : String → Option ℤ) (search : String → String)
        (now : ℤ) (currentYear : ℕ) (days_ahead : ℤ) (cache : Cache)
        (ms : List Market) (ledger : List LedgerRow) (r : LedgerRow),
      r ∈ logPredictions ledger
          (scanMarkets parseISO search now currentYear days_ahead cache
            ms).2 →
      r ∈ ledger ∨
        (0.10 ≤ r.trade.edge ∧ 0.65 ≤ r.trade.confidence ∧
         r.trade.edge = |r.trade.our_prediction - r.trade.market_odds|)) ∧
    (∀ (m : Market) (category : String) (p : Prediction) (now : ℤ),
      |p.prob_yes - yesPriceOf m| < 0.10 ∨ p.confidence < 0.65 →
      gateAndSize m category p now = none) := by
  constructor
  · intro parseISO search now currentYear days_ahead cache ms ledger r hr
    unfold logPredictions at hr
    rcases List.mem_append.mp hr with h1 | h2
    · exact Or.inl h1
    · right
      obtain ⟨t, ht, hrt⟩ := List.mem_map.mp h2
      obtain ⟨m, c, hg⟩ := scan_trades_sound ms cache t ht
      obtain ⟨he, hc, habs, -⟩ := gate_some_inv hg
      subst hrt
      exact ⟨he, hc, habs⟩
  · intro m category p now h
    exact gate_none h

/-- The quoted YES price of the scenario market. -/
theorem yesPrice_scenario : yesPriceOf scenarioMarket = 7 / 20 := by
  norm_num [yesPriceOf, scenarioMarket]

/-- The spec scenario evaluated on the gate: price 0.35, probability 0.60,
confidence 0.70 is accepted with direction YES and size 38. -/
theorem gate_scenario :
    gateAndSize scenarioMarket "other" scenarioPrediction 0
      = some scenarioTrade := by
  have habs : |scenarioPrediction.prob_yes - yesPriceOf scenarioMarket|
      = 1 / 4 := by
    rw [show scenarioPrediction.prob_yes = 3 / 5 from rfl, yesPrice_scenario,
      abs_of_nonneg (by norm_num : (0 : ℚ) ≤ 3 / 5 - 7 / 20)]
    norm_num
  have hcond : ¬(|scenarioPrediction.prob_yes - yesPriceOf scenarioMarket|
      < 0.10 ∨ scenarioPrediction.confidence < 0.65) := by
    rw [habs, show scenarioPrediction.confidence = 7 / 10 from rfl]
    push_neg
    constructor <;> norm_num
  have hdir : (if scenarioPrediction.prob_yes > yesPriceOf scenarioMarket
      then "YES" else "NO") = "YES" := by
    rw [if_pos]
    rw [show scenarioPrediction.prob_yes = 3 / 5 from rfl, yesPrice_scenario]
    norm_num
  have hsize : round2 (10 + scenarioPrediction.confidence * 40) = 38 := by
    rw [show scenarioPrediction.confidence = 7 / 10 from rfl,
      show (10 + (7 : ℚ) / 10 * 40) = 38 by norm_num]
    exact round2_eq_self (n := 3800) (by norm_num)
  unfold gateAndSize
  dsimp only
  rw [if_neg hcond, hdir, hsize, habs, yesPrice_scenario]
  rfl

/-- Stepping `_analyze_market` past both temporal filters. -/
theorem analyzeMarket_filters_pass {parseISO : String → Option ℤ}
    {search : String → String} {now : ℤ} {currentYear : ℕ}
    {days_ahead : ℤ} {cache : Cache} {m : Market}
    (h1 : dateCheck parseISO now days_ahead m = none)
    (h2 : ((findYears m.question).any fun y => decide (y < currentYear))
      = false) :
    analyzeMarket parseISO search now currentYear days_ahead cache m
      = match gateAndSize m (detect_category m.question)
            (predict search cache m.question
              (detect_category m.question)).result now with
        | some t => (⟨.trade t, true⟩,
            (predict search cache m.question
              (detect_category m.question)).cache)
        | none => (⟨.noTrade, true⟩,
            (predict search cache m.question
              (detect_category m.question)).cache) := by
  unfold analyzeMarket
  rw [h1]
  dsimp only
  rw [h2, if_neg Bool.false_ne_true]

/-- One full `_analyze_market` run of the scenario market against the
seeded cache: the scenario draft is produced. -/
theorem analyze_scenario :
    analyzeMarket sampleParseISO emptySearch 0 2026 30 seedCache
        scenarioMarket
      = (⟨.trade scenarioTrade, true⟩, seedCache) := by
  have h1 : dateCheck sampleParseISO 0 30 scenarioMarket = none := by decide
  have h2 : ((findYears scenarioMarket.question).any
      fun y => decide (y < 2026)) = false := by decide
  have h3 : detect_category scenarioMarket.question = "other" := by decide
  have h4 : predict emptySearch seedCache scenarioMarket.question "other"
      = ⟨scenarioPrediction, seedCache, false⟩ := predict_hit rfl
  rw [analyzeMarket_filters_pass h1 h2, h3, h4]
  dsimp only
  rw [gate_scenario]

/-- The scan of the single scenario market collects the scenario draft. -/
theorem scan_scenario :
    scanMarkets sampleParseISO emptySearch 0 2026 30 seedCache
        [scenarioMarket]
      = (seedCache, [scenarioTrade]) := by
  simp only [scanMarkets, analyze_scenario]

/-- C1 witness: a concrete scanned market produces a ledger row, and the
theorem certifies its thresholds; a below-threshold prediction yields no
row. -/
theorem c1_witness :
    (scenarioRow ∈ ([] : List LedgerRow) ∨
      (0.10 ≤ scenarioRow.trade.edge ∧ 0.65 ≤ scenarioRow.trade.confidence ∧
       scenarioRow.trade.edge
         = |scenarioRow.trade.our_prediction -
             scenarioRow.trade.market_odds|)) ∧
    gateAndSize scenarioMarket "other" (parse_results "" "Will it happen?") 0
      = none :=
  ⟨c1_ledger_thresholds.1 sampleParseISO emptySearch 0 2026 30 seedCache
      [scenarioMarket] [] scenarioRow
      (by rw [scan_scenario]; simp [logPredictions, scenarioRow]),
   c1_ledger_thresholds.2 scenarioMarket "other"
      (parse_results "" "Will it happen?") 0
      (Or.inr (by norm_num [parse_results]))⟩

/-- The confidence of every engine output is a whole number of hundredths
in [0, 0.85]. -/
theorem parse_confidence_rep (text question : String) :
    ∃ r : ℤ, (parse_results text question).confidence = (r : ℚ) / 100 := by
  unfold parse_results
  split
  · exact ⟨0, by norm_num⟩
  · exact ⟨_, rfl⟩

/-- C4: the proposed trade size of every accepted opportunity equals
min(max_trade_size, base_size + confidence × confidence_scale) with the
defaults min(50, 10 + confidence × 40) — the engine's confidence always
lies in [0, 0.85] in hundredths, so the explicit cap is never binding —
the size is monotone in confidence and at least the base size 10, and the
spec scenario (price 0.35, probability 0.60, confidence 0.70) is accepted
with direction YES and size 38. -/
theorem c4_trade_sizing :
    (∀ text question, 0 ≤ (parse_results text question).confidence ∧
        (parse_results text question).confidence ≤ 0.85 ∧
        ∃ r : ℤ, (parse_results text question).confidence = (r : ℚ) / 100) ∧
    (∀ (m : Market) (category : String) (p : Prediction) (now : ℤ)
        (t : PaperTrade) (r : ℤ),
      0 ≤ p.confidence → p.confidence ≤ 0.85 →
      p.confidence = (r : ℚ) / 100 →
      gateAndSize m category p now = some t →
      t.trade_size = min 50 (10 + t.confidence * 40) ∧ 10 ≤ t.trade_size) ∧
    (∀ c1 c2 : ℚ, c1 ≤ c2 →
      round2 (10 + c1 * 40) ≤ round2 (10 + c2 * 40)) ∧
    (gateAndSize scenarioMarket "other" scenarioPrediction 0
        = some scenarioTrade ∧
      scenarioTrade.direction = "YES" ∧ scenarioTrade.trade_size = 38 ∧
      (38 : ℚ) = min 50 (10 + scenarioPrediction.confidence * 40)) := by
  refine ⟨?_, ?_, ?_, gate_scenario, rfl, rfl, ?_⟩
  · intro text question
    obtain ⟨-, -, h0, h85⟩ := parse_results_bounds text question
    exact ⟨h0, h85, parse_confidence_rep text question⟩
  · intro m category p now t r h0 h85 hrep hg
    obtain ⟨-, -, -, hconf, -, -, hts⟩ := gate_some_inv hg
    rw [hrep] at hts h0 h85
    have hr0 : (0 : ℚ) ≤ (r : ℚ) := by linarith
    have hr85 : (r : ℚ) ≤ 85 := by
      have : (0.85 : ℚ) = 85 / 100 := by norm_num
      rw [this] at h85
      linarith
    have hcast : 10 + (r : ℚ) / 100 * 40 = ((1000 + 40 * r : ℤ) : ℚ) / 100 := by
      push_cast
      ring
    rw [hcast, round2_hundredth, ← hcast] at hts
    constructor
    · rw [hts, hconf, hrep, min_eq_right (by linarith : 10 + (r : ℚ) / 100 * 40 ≤ 50)]
    · rw [hts]
      linarith
  · intro c1 c2 h
    exact round2_mono (by linarith)
  · rw [show scenarioPrediction.confidence = 7 / 10 from rfl,
      show (10 + (7 : ℚ) / 10 * 40) = 38 by norm_num,
      min_eq_right (by norm_num : (38 : ℚ) ≤ 50)]

/-- C4 witness: the theorem applied to the concrete scenario inputs. -/
theorem c4_witness :
    (0 ≤ (parse_results "" "q").confidence ∧
      (parse_results "" "q").confidence ≤ 0.85 ∧
      ∃ r : ℤ, (parse_results "" "q").confidence = (r : ℚ) / 100) ∧
    (scenarioTrade.trade_size
        = min 50 (10 + scenarioTrade.confidence * 40) ∧
      10 ≤ scenarioTrade.trade_size) ∧
    round2 (10 + 0 * 40) ≤ round2 (10 + 1 * 40) :=
  ⟨c4_trade_sizing.1 "" "q",
   c4_trade_sizing.2.1 scenarioMarket "other" scenarioPrediction 0
     scenarioTrade 70 (by norm_num [scenarioPrediction])
     (by norm_num [scenarioPrediction]) (by norm_num [scenarioPrediction])
     gate_scenario,
   c4_trade_sizing.2.2.1 0 1 (by norm_num)⟩

/-- C5: a market whose resolution date parses to an instant strictly
before now is skipped with tag SKIPPED_DATE, the prediction engine is not
invoked, and the cache is untouched. -/
theorem c5_past_date_skipped :
    ∀ (parseISO : String → Option ℤ) (search : String → String) (now : ℤ)
      (currentYear : ℕ) (days_ahead : ℤ) (cache : Cache) (m : Market)
      (t : ℤ),
      effectiveEndDate m ≠ "" →
      parseISO (effectiveEndDate m) = some t →
      t < now →
      analyzeMarket parseISO search now currentYear days_ahead cache m
        = (⟨.skippedDate, false⟩, cache) := by
  intro parseISO search now currentYear days_ahead cache m t h1 h2 h3
  have hd : dateCheck parseISO now days_ahead m = some .pastDate := by
    unfold dateCheck
    rw [if_neg h1, h2]
    dsimp only
    rw [if_pos h3]
  unfold analyzeMarket
  rw [hd]

/-- C5 witness: the theorem applied to a concrete market whose end date
parses to 2020-01-01, with "now" in 2025. -/
theorem c5_witness :
    analyzeMarket sampleParseISO emptySearch 1760000000 2026 30 []
        pastMarket
      = (⟨.skippedDate, false⟩, []) :=
  c5_past_date_skipped sampleParseISO emptySearch 1760000000 2026 30 []
    pastMarket 1577836800 (by decide) (by decide) (by decide)

/-- C6 counterexample: `pastMarket`'s question contains the stale year
token 2020 (strictly less than the current year 2026), yet the market is
rejected with tag SKIPPED_DATE, not SKIPPED_YEAR, because the
resolution-date check runs first; this refutes the claim that every
market with a stale year token is tagged SKIPPED_YEAR. -/
theorem c6_counterexample :
    ((analyzeMarket sampleParseISO emptySearch 1760000000 2026 30 []
        pastMarket).1.result = .skippedDate ∧
      (analyzeMarket sampleParseISO emptySearch 1760000000 2026 30 []
        pastMarket).1.result ≠ .skippedYear) ∧
    ((findYears pastMarket.question).any fun y => decide (y < 2026))
      = true := by
  constructor
  · have hd : dateCheck sampleParseISO 1760000000 30 pastMarket
        = some .pastDate := by decide
    have h : analyzeMarket sampleParseISO emptySearch 1760000000 2026 30 []
        pastMarket = (⟨.skippedDate, false⟩, []) := by
      unfold analyzeMarket
      rw [hd]
    rw [h]
    exact ⟨rfl, by decide⟩
  · decide

/-- C6 (amended): a market that passes the resolution-date stage
(no past-date or too-far rejection) and whose question carries a
four-digit 20xx year token strictly below the current year is rejected
with tag SKIPPED_YEAR, without invoking the prediction engine. -/
theorem c6_stale_year_skipped :
    ∀ (parseISO : String → Option ℤ) (search : String → String) (now : ℤ)
      (currentYear : ℕ) (days_ahead : ℤ) (cache : Cache) (m : Market),
      dateCheck parseISO now days_ahead m = none →
      ((findYears m.question).any fun y => decide (y < currentYear))
        = true →
      analyzeMarket parseISO search now currentYear days_ahead cache m
        = (⟨.skippedYear, false⟩, cache) := by
  intro parseISO search now currentYear days_ahead cache m h1 h2
  unfold analyzeMarket
  rw [h1]
  dsimp only
  rw [h2, if_pos rfl]

/-- C6 witness: a dateless market whose question mentions 2020 is tagged
SKIPPED_YEAR in 2026 with no prediction computed. -/
theorem c6_witness :
    analyzeMarket sampleParseISO emptySearch 1760000000 2026 30 []
        staleYearMarket
      = (⟨.skippedYear, false⟩, []) :=
  c6_stale_year_skipped sampleParseISO emptySearch 1760000000 2026 30 []
    staleYearMarket (by decide) (by decide)

/-- Inversion of an accepted `evaluate_position`: the position count was
strictly below the cap, the market had no open position, and the decision
targets the opportunity's market. -/
theorem evaluate_some_inv {cfg : BotConfig} {active : Positions}
    {opp : MainOpportunity} {calcPos : ℚ → ℚ → ℚ → ℚ}
    {approve : ℚ → ℚ → ℚ → Bool} {d : Decision}
    (h : evaluate_position cfg active opp calcPos approve = some d) :
    active.length < cfg.max_open_positions ∧
    assocFind active opp.market.id = none ∧
    d.market_id = opp.market.id := by
  unfold evaluate_position at h
  split at h
  · exact absurd h (by simp)
  · next h1 =>
    split at h
    · exact absurd h (by simp)
    · next h2 =>
      dsimp only at h
      split at h
      · exact absurd h (by simp)
      · refine ⟨by omega, ?_, ?_⟩
        · cases hf : assocFind active opp.market.id with
          | none => rfl
          | some d' => rw [hf] at h2; exact absurd rfl h2
        · injection h with hd
          rw [← hd]

/-- C7: the risk gate returns no decision when the open-position count is
already at `max_open_positions` or when the market already has an open
position; consequently every reachable open-position table has at most
`max_open_positions` entries and never two entries for one market id. -/
theorem c7_risk_gate :
    (∀ (cfg : BotConfig) (active : Positions) (opp : MainOpportunity)
        (calcPos : ℚ → ℚ → ℚ → ℚ) (approve : ℚ → ℚ → ℚ → Bool),
      cfg.max_open_positions ≤ active.length →
      evaluate_position cfg active opp calcPos approve = none) ∧
    (∀ (cfg : BotConfig) (active : Positions) (opp : MainOpportunity)
        (calcPos : ℚ → ℚ → ℚ → ℚ) (approve : ℚ → ℚ → ℚ → Bool),
      (assocFind active opp.market.id).isSome = true →
      evaluate_position cfg active opp calcPos approve = none) ∧
    (∀ (cfg : BotConfig) (s : Positions), Reachable cfg s →
      s.length ≤ cfg.max_open_positions ∧ (s.map Prod.fst).Nodup) := by
  refine ⟨?_, ?_, ?_⟩
  · intro cfg active opp calcPos approve h
    unfold evaluate_position
    rw [if_pos h]
  · intro cfg active opp calcPos approve h
    simp [evaluate_position, h]
  · intro cfg s h
    induction h with
    | init => exact ⟨Nat.zero_le _, List.nodup_nil⟩
    | @step s' opp calcPos approve orderOk hr ih =>
      unfold botStep
      cases he : evaluate_position cfg s' opp calcPos approve with
      | none => exact ih
      | some d =>
        dsimp only
        obtain ⟨h1, h2, h3⟩ := evaluate_some_inv he
        unfold execute_trade
        by_cases hb : (cfg.auto_execute && orderOk) = true
        · rw [if_pos hb]
          constructor
          · simp only [List.length_cons]
            omega
          · simp only [List.map_cons, List.nodup_cons]
            exact ⟨h3 ▸ assocFind_none_not_mem h2, ih.2⟩
        · rw [if_neg hb]
          exact ih
    | @resolve s' marketId hr ih =>
      refine ⟨le_trans (List.length_filter_le _ _) ih.1, ?_⟩
      exact List.Nodup.sublist ((List.filter_sublist _).map Prod.fst) ih.2

/-- C7 witness: the theorem applied at a zero-cap configuration, at a
table already holding the opportunity's market, and at the initial
reachable state. -/
theorem c7_witness :
    evaluate_position ⟨50, 0, true⟩ [] (sampleOpp "m")
        (fun _ _ _ => 0) (fun _ _ _ => true) = none ∧
    evaluate_position ⟨50, 5, true⟩ [("m", sampleDecision)] (sampleOpp "m")
        (fun _ _ _ => 0) (fun _ _ _ => true) = none ∧
    (([] : Positions).length ≤ (5 : ℕ) ∧
      (([] : Positions).map Prod.fst).Nodup) :=
  ⟨c7_risk_gate.1 ⟨50, 0, true⟩ [] (sampleOpp "m") (fun _ _ _ => 0)
      (fun _ _ _ => true) (Nat.le_refl 0),
   c7_risk_gate.2.1 ⟨50, 5, true⟩ [("m", sampleDecision)] (sampleOpp "m")
      (fun _ _ _ => 0) (fun _ _ _ => true) rfl,
   c7_risk_gate.2.2 ⟨50, 5, true⟩ [] Reachable.init⟩

/-- C8 counterexample: a market record with no price field is quoted at
0.5, not 0, refuting the claimed default. -/
theorem c8_counterexample :
    yesPriceOf missingPriceMarket = 0.5 ∧
    yesPriceOf missingPriceMarket ≠ 0 := by
  constructor
  · norm_num [yesPriceOf, missingPriceMarket]
  · norm_num [yesPriceOf, missingPriceMarket]

/-- C8 (amended): a missing numeric price field defaults to 0.5 in the
paper traders (and the main bot defaults a missing `yes_price` to 0.5 and
a missing `volume` to 1000); the accessors are total, so the normalizer
never raises on a missing field. -/
theorem c8_defaults :
    (∀ m : Market, m.prices = none → yesPriceOf m = 0.5) ∧
    (∀ m : MainMarket, m.yes_price = none → mainYesPrice m = 0.5) ∧
    (∀ m : MainMarket, m.volume = none → volumeOf m = 1000) := by
  refine ⟨?_, ?_, ?_⟩ <;> intro m h <;>
    simp [yesPriceOf, mainYesPrice, volumeOf, h]

/-- C8 witness: the theorem applied to concrete records with the fields
absent. -/
theorem c8_witness :
    yesPriceOf missingPriceMarket = 0.5 ∧
    mainYesPrice bareMainMarket = 0.5 ∧
    volumeOf bareMainMarket = 1000 :=
  ⟨c8_defaults.1 missingPriceMarket rfl,
   c8_defaults.2.1 bareMainMarket rfl,
   c8_defaults.2.2 bareMainMarket rfl⟩

/-- The single-pass SQL aggregate of `get_stats` equals the filter-based
counts over the ledger. -/
theorem statsScan_spec (rows : List LedgerRow) :
    (statsScan rows).total
        = (rows.filter (fun r => r.outcome.isSome)).length ∧
    (statsScan rows).wins
        = (rows.filter (fun r => r.outcome == some "WIN")).length ∧
    (statsScan rows).losses
        = (rows.filter (fun r => r.outcome == some "LOSS")).length ∧
    (statsScan rows).pnl
        = ((rows.filter (fun r => r.outcome.isSome)).map
            (fun r => r.pnl.getD 0)).sum := by
  induction rows with
  | nil => exact ⟨rfl, rfl, rfl, rfl⟩
  | cons r rest ih =>
    obtain ⟨ih1, ih2, ih3, ih4⟩ := ih
    cases h : r.outcome with
    | none =>
      simp only [statsScan, h, List.filter_cons, Option.isSome_none,
        Bool.false_eq_true, if_false, beq_iff_eq, Option.some.injEq]
      refine ⟨ih1, ?_, ?_, ih4⟩
      · rw [if_neg (by simp [h]), ih2]
      · rw [if_neg (by simp [h]), ih3]
    | some o =>
      simp only [statsScan, h, List.filter_cons, Option.isSome_some,
        if_true, List.length_cons, List.map_cons, List.sum_cons]
      refine ⟨by rw [ih1], ?_, ?_, by rw [ih4]; ring⟩
      · by_cases ho : o = "WIN"
        · subst ho
          rw [if_pos rfl, if_pos (by simp [h]), List.length_cons, ih2]
        · rw [if_neg ho, if_neg (by simp [h, ho]), ih2]
          omega
      · by_cases ho : o = "LOSS"
        · subst ho
          rw [if_pos rfl, if_pos (by simp [h]), List.length_cons, ih3]
        · rw [if_neg ho, if_neg (by simp [h, ho]), ih3]
          omega

/-- The scheduler's aggregate counts every row in `total`. -/
theorem schedScan_total (rows : List LedgerRow) :
    (schedScan rows).1 = rows.length := by
  induction rows with
  | nil => rfl
  | cons r rest ih => simp only [schedScan, List.length_cons, ih]

/-- C10 counterexample: on a ledger with one resolved and one unresolved
row, `get_stats` reports `total_predictions = 1`, not the total row count
2 — its query filters with `WHERE outcome IS NOT NULL`, so the "total" it
returns is the resolved-row count, refuting "returns the total number of
ledger rows". -/
theorem c10_counterexample :
    (get_stats [winRow, sampleRow]).total_predictions = 1 ∧
    ([winRow, sampleRow] : List LedgerRow).length = 2 ∧
    (get_stats [winRow, sampleRow]).total_predictions
      ≠ ([winRow, sampleRow] : List LedgerRow).length := by
  refine ⟨rfl, rfl, by decide⟩

/-- C10 (amended): `get_stats` is a pure read-only aggregate returning —
among the rows with a non-null outcome — their count (as
`total_predictions`), the WIN and LOSS counts, the win rate over resolved
rows, and their cumulative profit-and-loss; the all-row total is only
reported by the scheduler variant `sched_get_stats`. -/
theorem c10_stats_aggregate :
    ∀ rows : List LedgerRow,
      (get_stats rows).total_predictions
          = (rows.filter (fun r => r.outcome.isSome)).length ∧
      (get_stats rows).wins
          = (rows.filter (fun r => r.outcome == some "WIN")).length ∧
      (get_stats rows).losses
          = (rows.filter (fun r => r.outcome == some "LOSS")).length ∧
      (get_stats rows).total_pnl
          = ((rows.filter (fun r => r.outcome.isSome)).map
              (fun r => r.pnl.getD 0)).sum ∧
      ((get_stats rows).wins + (get_stats rows).losses ≠ 0 →
        (get_stats rows).win_rate
          = ((get_stats rows).wins : ℚ)
              / (((get_stats rows).wins : ℚ) + ((get_stats rows).losses : ℚ))
              * 100) ∧
      (sched_get_stats rows).total = rows.length := by
  intro rows
  obtain ⟨h1, h2, h3, h4⟩ := statsScan_spec rows
  refine ⟨h1, h2, h3, h4, ?_, schedScan_total rows⟩
  intro hne
  unfold get_stats at hne ⊢
  dsimp only at hne ⊢
  rw [if_pos (by omega)]

/-- C10 witness: the amended aggregate facts at a concrete two-row
ledger, with the win-rate premise discharged there. -/
theorem c10_witness :
    (get_stats [winRow, sampleRow]).total_predictions
        = (([winRow, sampleRow] : List LedgerRow).filter
            (fun r => r.outcome.isSome)).length ∧
    (get_stats [winRow, sampleRow]).win_rate
        = ((get_stats [winRow, sampleRow]).wins : ℚ)
            / (((get_stats [winRow, sampleRow]).wins : ℚ)
                + ((get_stats [winRow, sampleRow]).losses : ℚ)) * 100 :=
  ⟨(c10_stats_aggregate [winRow, sampleRow]).1,
   (c10_stats_aggregate [winRow, sampleRow]).2.2.2.2.1 (by decide)⟩

end PolyBot
